import Mathlib

/-!
# Verification of the SkateIQ caching and rate-limiting core

Shallow embedding of `src/caching.py` (CacheEntry, LRUCache, the `cached`
memoization decorator) and `src/middleware.py` (TokenBucket,
RateLimitMiddleware), with theorems settling the frozen claims about them.

Modelling conventions:
* Wall-clock timestamps (`time.time()` / `datetime.now()`) are explicit `ℚ`
  parameters threaded through each operation; real elapsed time is
  non-negative, which appears as monotonicity hypotheses on timestamps.
* Python `float` arithmetic on token counts and hit rates is modelled
  exactly over `ℚ`.
* Python `int` parameters are modelled as `ℤ` (counts that are structurally
  non-negative, such as sizes of containers, as `ℕ`).
* `dict` / `OrderedDict` are association lists; the list order is the
  `OrderedDict` order (head = oldest, last = most recently inserted/used);
  per-key deletion is modelled as filtering the key out, which agrees with
  `del d[key]` on the unique-key states these operations produce.
* Python `None` results flowing through the cache are modelled by taking the
  the cached-value type to be an `Option`.
* Locks serialize the public operations; each call is one atomic step.
-/

set_option autoImplicit false
set_option linter.unusedSectionVars false

namespace SkateIQ

/-! ## Definitions: TokenBucket (src/middleware.py, lines 17-64) -/

/-- State of `TokenBucket`: `capacity` (int), `refill_rate` (tokens/second),
current `tokens`, and `last_refill` timestamp. -/
structure TokenBucket where
  capacity : ℤ
  refill_rate : ℚ
  tokens : ℚ
  last_refill : ℚ
  deriving Repr, DecidableEq

namespace TokenBucket

/-- `TokenBucket.__init__`: starts full, `last_refill = time.time()`. -/
def init (capacity : ℤ) (refill_rate : ℚ) (now : ℚ) : TokenBucket :=
  { capacity := capacity, refill_rate := refill_rate,
    tokens := (capacity : ℚ), last_refill := now }

/-- `TokenBucket._refill`: add `elapsed * refill_rate` tokens, capped at
`capacity`, and stamp `last_refill`. -/
def refill (b : TokenBucket) (now : ℚ) : TokenBucket :=
  { b with
    tokens := min (b.capacity : ℚ) (b.tokens + (now - b.last_refill) * b.refill_rate),
    last_refill := now }

/-- `TokenBucket.consume(tokens)`: refill, then consume `n` tokens if at
least `n` are present.  Returns whether consumption happened, with the new
state. -/
def consume (b : TokenBucket) (now : ℚ) (n : ℤ) : Bool × TokenBucket :=
  let b1 := b.refill now
  if (n : ℚ) ≤ b1.tokens then
    (true, { b1 with tokens := b1.tokens - (n : ℚ) })
  else
    (false, b1)

/-- `TokenBucket.get_tokens`: refill and report the current count. -/
def get_tokens (b : TokenBucket) (now : ℚ) : ℚ × TokenBucket :=
  let b1 := b.refill now
  (b1.tokens, b1)

/-- One externally visible call on a bucket, tagged with the wall-clock
instant at which it runs. -/
inductive Op where
  | consume (now : ℚ) (n : ℤ)
  | get_tokens (now : ℚ)
  deriving Repr

/-- The timestamp of an operation. -/
def Op.time : Op → ℚ
  | .consume now _ => now
  | .get_tokens now => now

/-- Apply one call to a bucket state. -/
def step (b : TokenBucket) : Op → TokenBucket
  | .consume now n => (b.consume now n).2
  | .get_tokens now => (b.get_tokens now).2

/-- Run a sequence of calls. -/
def run (b : TokenBucket) : List Op → TokenBucket
  | [] => b
  | op :: ops => run (b.step op) ops

/-- A trace is admissible from a bucket state when wall-clock time never runs
backwards and every `consume` requests a non-negative number of tokens. -/
def Admissible (b : TokenBucket) : List Op → Prop
  | [] => True
  | op :: ops =>
      b.last_refill ≤ op.time ∧
      (∀ now n, op = .consume now n → 0 ≤ n) ∧
      Admissible (b.step op) ops

/-- The bucket-state invariant: non-negative rate, tokens within
`[0, capacity]`. -/
def Inv (b : TokenBucket) : Prop :=
  0 ≤ b.refill_rate ∧ 0 ≤ b.tokens ∧ b.tokens ≤ (b.capacity : ℚ)

/-- Run a list of `consume` calls, each tagged `(now, n)`, recording each
call's boolean result. -/
def consumeResults (b : TokenBucket) : List (ℚ × ℤ) → List Bool × TokenBucket
  | [] => ([], b)
  | (now, n) :: rest =>
      let r := b.consume now n
      let rs := consumeResults r.2 rest
      (r.1 :: rs.1, rs.2)

end TokenBucket

/-- Bucket state after `TokenBucket(capacity=5, refill_rate=1)` followed by
six `consume(1)` calls with no elapsed time (tokens drained to 0, sixth call
rejected). -/
def c8_bucket : TokenBucket :=
  (TokenBucket.consumeResults (TokenBucket.init 5 1 0)
    (List.replicate 6 ((0 : ℚ), (1 : ℤ)))).2

/-! ## Definitions: CacheEntry and LRUCache (src/caching.py, lines 18-175) -/

/-- `CacheEntry`: value plus TTL and access metadata.  `expires_at` is
`created_at + ttl` seconds. -/
structure CacheEntry (K V : Type) where
  key : K
  value : V
  created_at : ℚ
  expires_at : ℚ
  access_count : ℕ
  last_accessed : ℚ
  deriving Repr, DecidableEq

namespace CacheEntry

variable {K V : Type}

/-- `CacheEntry.__init__(key, value, ttl)` at wall-clock instant `now`. -/
def mkEntry (k : K) (v : V) (ttl : ℤ) (now : ℚ) : CacheEntry K V :=
  { key := k, value := v, created_at := now, expires_at := now + (ttl : ℚ),
    access_count := 0, last_accessed := now }

/-- `CacheEntry.is_expired`: `datetime.now() >= self.expires_at`. -/
def is_expired (e : CacheEntry K V) (now : ℚ) : Bool :=
  decide (e.expires_at ≤ now)

/-- `CacheEntry.access`: bump the access count, stamp `last_accessed`,
return the value (with the updated entry). -/
def access (e : CacheEntry K V) (now : ℚ) : V × CacheEntry K V :=
  (e.value, { e with access_count := e.access_count + 1, last_accessed := now })

end CacheEntry

/-- `LRUCache` state: the `OrderedDict` as an association list (head =
least recently used), plus the `_hits` / `_misses` counters. -/
structure LRUCache (K V : Type) where
  max_size : ℕ
  default_ttl : ℤ
  cache : List (K × CacheEntry K V)
  hits : ℕ
  misses : ℕ
  deriving Repr, DecidableEq

/-- First entry stored under `k` (Python dict lookup; keys are unique in all
reachable states). -/
def lookupEntry {K V : Type} [DecidableEq K] (k : K) :
    List (K × CacheEntry K V) → Option (CacheEntry K V)
  | [] => none
  | p :: rest => if p.1 = k then some p.2 else lookupEntry k rest

/-- `del d[k]` (removes every binding of `k`; identical to Python on the
unique-key states the operations produce). -/
def eraseKey {K V : Type} [DecidableEq K] (k : K)
    (l : List (K × CacheEntry K V)) : List (K × CacheEntry K V) :=
  l.filter fun p => decide (p.1 ≠ k)

namespace LRUCache

variable {K V : Type} [DecidableEq K]

/-- `LRUCache.__init__(max_size, default_ttl)`. -/
def init (max_size : ℕ) (default_ttl : ℤ) : LRUCache K V :=
  { max_size := max_size, default_ttl := default_ttl, cache := [],
    hits := 0, misses := 0 }

/-- `LRUCache.get(key)` at instant `now`: miss on absence; expired entries
are deleted and count as misses; otherwise move to the most-recently-used
end, count a hit, and return the value via `entry.access()`. -/
def get (c : LRUCache K V) (k : K) (now : ℚ) : Option V × LRUCache K V :=
  match lookupEntry k c.cache with
  | none => (none, { c with misses := c.misses + 1 })
  | some e =>
      if e.is_expired now then
        (none, { c with cache := eraseKey k c.cache, misses := c.misses + 1 })
      else
        let a := e.access now
        (some a.1,
         { c with cache := eraseKey k c.cache ++ [(k, a.2)], hits := c.hits + 1 })

/-- `ttl or self.default_ttl`: Python `or` falls back on `None` *and* on the
falsy value `0`. -/
def effective_ttl (c : LRUCache K V) (ttl : Option ℤ) : ℤ :=
  match ttl with
  | none => c.default_ttl
  | some t => if t = 0 then c.default_ttl else t

/-- The `while len(self.cache) >= self.max_size` eviction loop of
`LRUCache.set`: repeatedly drop the oldest entry.  Returns `none` when the
loop empties the dict and still runs (`max_size = 0`), where Python's
`next(iter(...))` raises `StopIteration`. -/
def evictLoop {K V : Type} (max_size : ℕ) :
    List (K × CacheEntry K V) → Option (List (K × CacheEntry K V))
  | [] => if max_size = 0 then none else some []
  | p :: rest =>
      if max_size ≤ (p :: rest).length then evictLoop max_size rest
      else some (p :: rest)

/-- `LRUCache.set(key, value, ttl)` at instant `now`: remove any existing
binding, evict oldest entries while at capacity, append the new entry at the
most-recently-used end.  The boolean is `false` exactly when the eviction
loop raised (`max_size = 0`), in which case the dict has been emptied. -/
def set (c : LRUCache K V) (k : K) (v : V) (ttl : Option ℤ) (now : ℚ) :
    LRUCache K V × Bool :=
  let t := c.effective_ttl ttl
  let l1 := eraseKey k c.cache
  match evictLoop c.max_size l1 with
  | none => ({ c with cache := [] }, false)
  | some l2 =>
      ({ c with cache := l2 ++ [(k, CacheEntry.mkEntry k v t now)] }, true)

/-- `LRUCache.delete(key)`. -/
def delete (c : LRUCache K V) (k : K) : Bool × LRUCache K V :=
  match lookupEntry k c.cache with
  | some _ => (true, { c with cache := eraseKey k c.cache })
  | none => (false, c)

/-- `LRUCache.clear()`: drop all entries and reset both counters. -/
def clear (c : LRUCache K V) : LRUCache K V :=
  { c with cache := [], hits := 0, misses := 0 }

/-- `LRUCache.cleanup_expired()` at instant `now`: delete every expired
entry, returning how many were removed. -/
def cleanup_expired (c : LRUCache K V) (now : ℚ) : ℕ × LRUCache K V :=
  let expired := c.cache.filter fun p => p.2.is_expired now
  (expired.length,
   { c with cache := c.cache.filter fun p => !(p.2.is_expired now) })

/-- Python `round(x, 2)` on the exact rational value: round half to even at
the second decimal. -/
def pyRoundHalfEven (x : ℚ) : ℤ :=
  if x - ⌊x⌋ < 1/2 then ⌊x⌋
  else if 1/2 < x - ⌊x⌋ then ⌊x⌋ + 1
  else if Even ⌊x⌋ then ⌊x⌋ else ⌊x⌋ + 1

/-- `round(x, 2)`. -/
def pyRound2 (x : ℚ) : ℚ := (pyRoundHalfEven (x * 100) : ℚ) / 100

/-- The dictionary returned by `LRUCache.get_stats`. -/
structure Stats where
  size : ℕ
  max_size : ℕ
  hits : ℕ
  misses : ℕ
  hit_rate : ℚ
  total_requests : ℕ
  deriving Repr, DecidableEq

/-- `LRUCache.get_stats()`: `hit_rate = round(hits / total * 100, 2)`, or
`0` when there have been no requests. -/
def get_stats (c : LRUCache K V) : Stats :=
  let total := c.hits + c.misses
  let hit_rate : ℚ :=
    if 0 < total then (c.hits : ℚ) / (total : ℚ) * 100 else 0
  { size := c.cache.length, max_size := c.max_size, hits := c.hits,
    misses := c.misses, hit_rate := pyRound2 hit_rate,
    total_requests := total }

/-- One public call on an `LRUCache`, tagged with its wall-clock instant. -/
inductive CacheOp (K V : Type) where
  | get (k : K) (now : ℚ)
  | set (k : K) (v : V) (ttl : Option ℤ) (now : ℚ)
  | delete (k : K)
  | clear
  | cleanup_expired (now : ℚ)

/-- Apply one call to a cache state. -/
def applyOp (c : LRUCache K V) : CacheOp K V → LRUCache K V
  | .get k now => (c.get k now).2
  | .set k v ttl now => (c.set k v ttl now).1
  | .delete k => (c.delete k).2
  | .clear => c.clear
  | .cleanup_expired now => (c.cleanup_expired now).2

/-- Run a sequence of calls. -/
def runOps (c : LRUCache K V) : List (CacheOp K V) → LRUCache K V
  | [] => c
  | op :: ops => runOps (c.applyOp op) ops

/-- Run a sequence of `get` calls, counting `(hits, misses)` by each call's
observable outcome (value returned vs. absent). -/
def runGets (c : LRUCache K V) : List (K × ℚ) → LRUCache K V × ℕ × ℕ
  | [] => (c, 0, 0)
  | (k, now) :: rest =>
      let rs := runGets (c.get k now).2 rest
      if ((c.get k now).1).isSome then (rs.1, rs.2.1 + 1, rs.2.2)
      else (rs.1, rs.2.1, rs.2.2 + 1)

end LRUCache

/-! ## Definitions: the `cached` memoization decorator
(src/caching.py, lines 296-331)

A call through the wrapper produced by `cached(cache, ttl, key_func)`.
Python values that may be `None` are modelled as `Option W` (`none` is
Python `None`); a failing call of the wrapped function is `Except.error`.
`keyOf` abstracts both the default md5 key derivation and a custom
`key_func` (either way the key is a pure function of the arguments).
`cache.get` hands the stored value back unwrapped, so a stored `None` and a
miss are the same observation `none`, which `Option.join` captures. -/
def cachedCall {K W α E : Type} [DecidableEq K]
    (cache : LRUCache K (Option W)) (ttl : Option ℤ) (keyOf : α → K)
    (func : α → Except E (Option W)) (a : α) (now : ℚ) :
    Except E (Option W) × LRUCache K (Option W) :=
  let key := keyOf a
  let r := cache.get key now
  match r.1.join with
  | some w => (Except.ok (some w), r.2)
  | none =>
      match func a with
      | Except.error e => (Except.error e, r.2)
      | Except.ok result =>
          (Except.ok result, (r.2.set key result ttl now).1)

/-! ## Definitions: RateLimitMiddleware (src/middleware.py, lines 67-162)

The HTTP layer is abstracted to what `dispatch` consults and produces: a
request carries its URL path (identifier resolution is the abstract
`idOf` parameter, standing for `identifier_func` / `_default_identifier`),
a response carries a status code and headers (the JSON body of the
rejection is not modelled), and `call_next` is an arbitrary function from
requests to responses.  `dispatch` makes several `time.time()` calls; they
appear as the parameters `t1` (consume), `t2` (the cleanup check and the
whole cleanup sweep) and `t3` (the response-header `get_tokens`). -/

/-- The part of a request `dispatch` consults. -/
structure Request where
  path : String

/-- A response: status code plus headers. -/
structure Response where
  status : ℕ
  headers : List (String × String)
  deriving Repr, DecidableEq

/-- `response.headers[k] = v`: replace any existing value of the header. -/
def setHeader (r : Response) (k v : String) : Response :=
  { r with headers := (r.headers.filter fun p => decide (p.1 ≠ k)) ++ [(k, v)] }

/-- Header lookup. -/
def lookupHeader (k : String) : List (String × String) → Option String
  | [] => none
  | p :: rest => if p.1 = k then some p.2 else lookupHeader k rest

/-- Python `int()` on a rational: truncation toward zero. -/
def pyInt (x : ℚ) : ℤ := if 0 ≤ x then ⌊x⌋ else ⌈x⌉

/-- The `JSONResponse(status_code=429, ..., headers={"Retry-After": "60"})`
rejection (its JSON body is not modelled). -/
def tooManyRequests : Response :=
  { status := 429, headers := [("Retry-After", "60")] }

/-- `RateLimitMiddleware` state: the identifier → bucket registry plus the
configuration and cleanup bookkeeping. -/
structure RateLimitMiddleware where
  buckets : List (String × TokenBucket)
  requests_per_minute : ℤ
  burst_size : ℤ
  cleanup_interval : ℚ
  last_cleanup : ℚ
  deriving Repr, DecidableEq

/-- Registry lookup. -/
def lookupBucket (id : String) : List (String × TokenBucket) → Option TokenBucket
  | [] => none
  | p :: rest => if p.1 = id then some p.2 else lookupBucket id rest

/-- Write an identifier's bucket state back to the registry (insert at the
end on first access, as `defaultdict` does). -/
def updateBucket (id : String) (b : TokenBucket) :
    List (String × TokenBucket) → List (String × TokenBucket)
  | [] => [(id, b)]
  | p :: rest => if p.1 = id then (id, b) :: rest else p :: updateBucket id b rest

namespace RateLimitMiddleware

/-- `RateLimitMiddleware.__init__`: empty registry, `cleanup_interval = 300`
seconds, `last_cleanup = time.time()`. -/
def init (requests_per_minute burst_size : ℤ) (now : ℚ) : RateLimitMiddleware :=
  { buckets := [], requests_per_minute := requests_per_minute,
    burst_size := burst_size, cleanup_interval := 300, last_cleanup := now }

/-- The `defaultdict` factory: `TokenBucket(burst_size, requests_per_minute / 60)`. -/
def newBucket (m : RateLimitMiddleware) (now : ℚ) : TokenBucket :=
  TokenBucket.init m.burst_size ((m.requests_per_minute : ℚ) / 60) now

/-- `self.buckets[identifier]`: the existing bucket, or a fresh one from the
factory. -/
def accessedBucket (m : RateLimitMiddleware) (idOf : Request → String)
    (req : Request) (t1 : ℚ) : TokenBucket :=
  (lookupBucket (idOf req) m.buckets).getD (m.newBucket t1)

/-- `_cleanup_old_buckets` at instant `tc`: `get_tokens()` refreshes every
bucket, those at ≥ 95% of capacity are dropped, `last_cleanup` is stamped.
(The float literal `0.95` is the exact rational 19/20.) -/
def cleanup_old_buckets (m : RateLimitMiddleware) (tc : ℚ) : RateLimitMiddleware :=
  let refreshed := m.buckets.map fun p => (p.1, (p.2.get_tokens tc).2)
  { m with
    buckets := refreshed.filter fun p =>
      decide (p.2.tokens < (p.2.capacity : ℚ) * (19/20))
    last_cleanup := tc }

/-- The state of the request's (aliased) bucket object just before
`call_next`: post-consume, refreshed by the cleanup sweep when it ran. -/
def threadBucket (m : RateLimitMiddleware) (idOf : Request → String)
    (req : Request) (t1 t2 : ℚ) : TokenBucket :=
  let r := (m.accessedBucket idOf req t1).consume t1 1
  if m.cleanup_interval < t2 - m.last_cleanup then (r.2.get_tokens t2).2 else r.2

/-- `RateLimitMiddleware.dispatch`: health-check paths bypass rate limiting;
otherwise resolve the identifier, get-or-create its bucket, and try to
consume one token.  On failure return the 429 rejection without invoking
`call_next`; on success run the periodic cleanup if due, invoke `call_next`,
and annotate its response with `X-RateLimit-Limit` (the bucket capacity) and
`X-RateLimit-Remaining` (`str(int(bucket.get_tokens()))`). -/
def dispatch (m : RateLimitMiddleware) (idOf : Request → String)
    (req : Request) (call_next : Request → Response) (t1 t2 t3 : ℚ) :
    Response × RateLimitMiddleware :=
  if req.path = "/health" ∨ req.path = "/api/health" then
    (call_next req, m)
  else
    let id := idOf req
    let b := m.accessedBucket idOf req t1
    let r := b.consume t1 1
    let m1 := { m with buckets := updateBucket id r.2 m.buckets }
    if r.1 = false then
      (tooManyRequests, m1)
    else
      let m2 := if m.cleanup_interval < t2 - m.last_cleanup
                then cleanup_old_buckets m1 t2 else m1
      let bL := m.threadBucket idOf req t1 t2
      let resp := call_next req
      let g := bL.get_tokens t3
      let resp1 := setHeader resp "X-RateLimit-Limit" (toString bL.capacity)
      let resp2 := setHeader resp1 "X-RateLimit-Remaining" (toString (pyInt g.1))
      let mfinal := if (lookupBucket id m2.buckets).isSome
                    then { m2 with buckets := updateBucket id g.2 m2.buckets }
                    else m2
      (resp2, mfinal)

end RateLimitMiddleware

/-- The claim-C1 scenario on `LRUCache(max_size=3)` (all calls at time 0, so
nothing expires): insert `a`, `b`, `c`, read `a`, insert `d`. -/
def c1_state : LRUCache String ℕ :=
  LRUCache.runOps (LRUCache.init 3 3600)
    [.set "a" 1 none 0, .set "b" 2 none 0, .set "c" 3 none 0,
     .get "a" 0, .set "d" 4 none 0]

/-! ## Theorems -/

namespace TokenBucket

theorem Inv.init (capacity : ℤ) (refill_rate : ℚ) (now : ℚ)
    (hc : 0 ≤ capacity) (hr : 0 ≤ refill_rate) :
    Inv (TokenBucket.init capacity refill_rate now) := by
  refine ⟨hr, ?_, le_refl _⟩
  simp only [TokenBucket.init]
  exact_mod_cast hc

theorem Inv.refill {b : TokenBucket} (hb : Inv b) {now : ℚ}
    (hnow : b.last_refill ≤ now) : Inv (b.refill now) := by
  obtain ⟨hr, h0, hc⟩ := hb
  refine ⟨hr, ?_, ?_⟩
  · have helapsed : 0 ≤ (now - b.last_refill) * b.refill_rate :=
      mul_nonneg (by linarith) hr
    have : (0 : ℚ) ≤ b.tokens + (now - b.last_refill) * b.refill_rate := by linarith
    have hcap : (0 : ℚ) ≤ (b.capacity : ℚ) := le_trans h0 hc
    simpa [TokenBucket.refill] using le_min hcap this
  · simp [TokenBucket.refill]

theorem Inv.step {b : TokenBucket} (hb : Inv b) {op : Op}
    (htime : b.last_refill ≤ op.time)
    (hn : ∀ now n, op = .consume now n → 0 ≤ n) :
    Inv (b.step op) := by
  cases op with
  | consume now n =>
      have hb1 : Inv (b.refill now) := hb.refill htime
      obtain ⟨hr, h0, hc⟩ := hb1
      have hn' : 0 ≤ n := hn now n rfl
      simp only [TokenBucket.step, TokenBucket.consume]
      by_cases h : (n : ℚ) ≤ (b.refill now).tokens
      · simp only [h, if_pos]
        refine ⟨hr, ?_, ?_⟩
        · have : (0 : ℚ) ≤ (n : ℚ) := by exact_mod_cast hn'
          simp only []
          linarith
        · have : (0 : ℚ) ≤ (n : ℚ) := by exact_mod_cast hn'
          simp only []
          linarith
      · simp only [h, if_neg, not_false_iff]
        exact ⟨hr, h0, hc⟩
  | get_tokens now =>
      exact hb.refill htime

theorem Inv.run {b : TokenBucket} (hb : Inv b) :
    ∀ ops : List Op, Admissible b ops → Inv (b.run ops)
  | [], _ => hb
  | op :: ops, h => by
      obtain ⟨htime, hn, hrest⟩ := h
      exact Inv.run (hb.step htime hn) ops hrest

/-- Unfolding of `consume` in the sufficient-tokens case. -/
theorem consume_true (b : TokenBucket) (now : ℚ) (n : ℤ)
    (h : (n : ℚ) ≤ (b.refill now).tokens) :
    b.consume now n =
      (true, { b.refill now with tokens := (b.refill now).tokens - (n : ℚ) }) := by
  simp only [TokenBucket.consume]
  rw [if_pos h]

/-- Unfolding of `consume` in the insufficient-tokens case: the call is
rejected and nothing beyond the refill changes. -/
theorem consume_false (b : TokenBucket) (now : ℚ) (n : ℤ)
    (h : (b.refill now).tokens < (n : ℚ)) :
    b.consume now n = (false, b.refill now) := by
  simp only [TokenBucket.consume]
  rw [if_neg (not_le.mpr h)]

end TokenBucket

theorem c8_bucket_eq :
    c8_bucket = { capacity := 5, refill_rate := 1, tokens := 0, last_refill := 0 } := by
  norm_num [c8_bucket, TokenBucket.consumeResults, TokenBucket.consume,
    TokenBucket.refill, TokenBucket.init, List.replicate]

/-! ## Claims C2 and C8 -/

/-- C2, counterexample: `consume` takes a Python `int`, so a negative request
is admitted (`tokens >= n` holds trivially) and *adds* tokens, pushing the
count above `capacity`.  Concretely, on a fresh `TokenBucket(5, 1)`,
`consume(-1)` returns true and leaves 6 tokens in a bucket of capacity 5. -/
theorem C2_counterexample :
    ((TokenBucket.init 5 1 0).consume 0 (-1)).1 = true ∧
    ((TokenBucket.init 5 1 0).consume 0 (-1)).2.tokens = 6 ∧
    (6 : ℚ) > (((TokenBucket.init 5 1 0).consume 0 (-1)).2.capacity : ℚ) := by
  norm_num [TokenBucket.consume, TokenBucket.refill, TokenBucket.init]

/-- C2 (amended): for a bucket created with non-negative capacity and refill
rate, along any sequence of `consume`/`get_tokens` calls in which wall-clock
time is non-decreasing and every `consume` requests a non-negative number of
tokens, the token count stays within `[0, capacity]`; moreover `consume`
returns false, and subtracts nothing beyond the refill, whenever the
post-refill token count is below the request. -/
theorem C2_tokenBucket_safe (capacity : ℤ) (refill_rate t0 : ℚ)
    (hcap : 0 ≤ capacity) (hrate : 0 ≤ refill_rate) :
    (∀ (b : TokenBucket) (now : ℚ) (n : ℤ),
        (b.refill now).tokens < (n : ℚ) →
        b.consume now n = (false, b.refill now)) ∧
    (∀ ops : List TokenBucket.Op,
        TokenBucket.Admissible (TokenBucket.init capacity refill_rate t0) ops →
        0 ≤ (TokenBucket.run (TokenBucket.init capacity refill_rate t0) ops).tokens ∧
        (TokenBucket.run (TokenBucket.init capacity refill_rate t0) ops).tokens ≤
          ((TokenBucket.run (TokenBucket.init capacity refill_rate t0) ops).capacity : ℚ)) := by
  constructor
  · exact fun b now n hlt => TokenBucket.consume_false b now n hlt
  · intro ops hops
    have h := (TokenBucket.Inv.init capacity refill_rate t0 hcap hrate).run ops hops
    exact ⟨h.2.1, h.2.2⟩

/-- C2 witness: instantiation of the amended claim on `TokenBucket(5, 1)`
with one `consume(2)` call at time 0. -/
theorem C2_tokenBucket_safe_witness :
    0 ≤ (TokenBucket.run (TokenBucket.init 5 1 0)
          [TokenBucket.Op.consume 0 2]).tokens ∧
    (TokenBucket.run (TokenBucket.init 5 1 0)
          [TokenBucket.Op.consume 0 2]).tokens ≤
      ((TokenBucket.run (TokenBucket.init 5 1 0)
          [TokenBucket.Op.consume 0 2]).capacity : ℚ) :=
  (C2_tokenBucket_safe 5 1 0 (by norm_num) (by norm_num)).2
    [TokenBucket.Op.consume 0 2]
    ⟨by norm_num [TokenBucket.init, TokenBucket.Op.time],
     by intro now n h; cases h; norm_num,
     trivial⟩

/-- C8, counterexample: after draining `TokenBucket(5, 1)` with six
`consume(1)` calls at time 0 (five succeed, the sixth fails), waiting 2
seconds — which is "at least 1 second" — lets *two* further `consume(1)`
calls succeed, not exactly one. -/
theorem C8_counterexample :
    (1 : ℚ) ≤ 2 ∧
    (TokenBucket.consumeResults (TokenBucket.init 5 1 0)
        [(0, 1), (0, 1), (0, 1), (0, 1), (0, 1), (0, 1), (2, 1), (2, 1)]).1 =
      [true, true, true, true, true, false, true, true] := by
  constructor
  · norm_num
  · norm_num [TokenBucket.consumeResults, TokenBucket.consume,
      TokenBucket.refill, TokenBucket.init]

/-- C8 (amended): on `TokenBucket(capacity=5, refill_rate=1)`, five immediate
`consume(1)` calls succeed and a sixth fails; after waiting `e` seconds with
`1 ≤ e < 2`, exactly one further `consume(1)` succeeds and the one after it
fails. -/
theorem C8_refill_scenario (e : ℚ) (h1 : 1 ≤ e) (h2 : e < 2) :
    (TokenBucket.consumeResults (TokenBucket.init 5 1 0)
        (List.replicate 6 ((0 : ℚ), (1 : ℤ)))).1 =
      [true, true, true, true, true, false] ∧
    (c8_bucket.consume e 1).1 = true ∧
    (((c8_bucket.consume e 1).2).consume e 1).1 = false := by
  have hrefill1 : c8_bucket.refill e =
      { capacity := 5, refill_rate := 1, tokens := e, last_refill := e } := by
    rw [c8_bucket_eq]
    norm_num [TokenBucket.refill, TokenBucket.mk.injEq]
    linarith
  have hstep1 : c8_bucket.consume e 1 =
      (true, { capacity := 5, refill_rate := 1, tokens := e - 1, last_refill := e }) := by
    rw [TokenBucket.consume_true c8_bucket e 1 (by rw [hrefill1]; push_cast; linarith)]
    rw [hrefill1]
    norm_num [TokenBucket.mk.injEq]
  have hrefill2 :
      ({ capacity := 5, refill_rate := 1, tokens := e - 1, last_refill := e } :
          TokenBucket).refill e =
        { capacity := 5, refill_rate := 1, tokens := e - 1, last_refill := e } := by
    norm_num [TokenBucket.refill, TokenBucket.mk.injEq]
    linarith
  have hfail :
      (({ capacity := 5, refill_rate := 1, tokens := e - 1, last_refill := e } :
          TokenBucket).consume e 1).1 = false := by
    rw [TokenBucket.consume_false _ _ _ (by rw [hrefill2]; push_cast; linarith)]
  refine ⟨?_, ?_, ?_⟩
  · norm_num [TokenBucket.consumeResults, TokenBucket.consume,
      TokenBucket.refill, TokenBucket.init, List.replicate]
  · rw [hstep1]
  · rw [hstep1]
    exact hfail

/-! ## Association-list and LRUCache lemmas -/

section CacheLemmas

variable {K V : Type} [DecidableEq K]

theorem lookupEntry_eraseKey_self (k : K) (l : List (K × CacheEntry K V)) :
    lookupEntry k (eraseKey k l) = none := by
  induction l with
  | nil => rfl
  | cons p rest ih =>
      by_cases h : p.1 = k
      · simpa [eraseKey, lookupEntry, h] using ih
      · simpa [eraseKey, lookupEntry, h] using ih

theorem lookupEntry_append_of_none {k : K} {l : List (K × CacheEntry K V)}
    (h : lookupEntry k l = none) (l' : List (K × CacheEntry K V)) :
    lookupEntry k (l ++ l') = lookupEntry k l' := by
  induction l with
  | nil => rfl
  | cons p rest ih =>
      by_cases hp : p.1 = k
      · simp [lookupEntry, hp] at h
      · simp only [lookupEntry, hp, if_neg, not_false_iff, List.cons_append] at h ⊢
        exact ih h

theorem evictLoop_lookup_none {k : K} {m : ℕ}
    {l l' : List (K × CacheEntry K V)}
    (hl : lookupEntry k l = none) (h : LRUCache.evictLoop m l = some l') :
    lookupEntry k l' = none := by
  induction l with
  | nil =>
      simp only [LRUCache.evictLoop] at h
      split at h
      · exact absurd h (by simp)
      · cases h
        exact hl
  | cons p rest ih =>
      simp only [LRUCache.evictLoop] at h
      split at h
      · by_cases hp : p.1 = k
        · simp [lookupEntry, hp] at hl
        · simp only [lookupEntry, hp, if_neg, not_false_iff] at hl
          exact ih hl h
      · cases h
        exact hl

theorem length_eraseKey_le (k : K) (l : List (K × CacheEntry K V)) :
    (eraseKey k l).length ≤ l.length :=
  List.length_filter_le _ l

theorem length_eraseKey_lt {k : K} {l : List (K × CacheEntry K V)}
    {e : CacheEntry K V} (h : lookupEntry k l = some e) :
    (eraseKey k l).length < l.length := by
  induction l with
  | nil => simp [lookupEntry] at h
  | cons p rest ih =>
      by_cases hp : p.1 = k
      · have heq : eraseKey k (p :: rest) = eraseKey k rest := by
          simp [eraseKey, List.filter_cons, hp]
        rw [heq, List.length_cons]
        exact Nat.lt_succ_of_le (length_eraseKey_le k rest)
      · have heq : eraseKey k (p :: rest) = p :: eraseKey k rest := by
          simp [eraseKey, List.filter_cons, hp]
        simp only [lookupEntry, hp, if_neg, not_false_iff] at h
        rw [heq, List.length_cons, List.length_cons]
        exact Nat.succ_lt_succ (ih h)

theorem evictLoop_some_length {m : ℕ} {l l' : List (K × CacheEntry K V)}
    (h : LRUCache.evictLoop m l = some l') : l'.length < m := by
  induction l with
  | nil =>
      simp only [LRUCache.evictLoop] at h
      split at h
      · exact absurd h (by simp)
      · cases h
        simp only [List.length_nil]
        omega
  | cons p rest ih =>
      simp only [LRUCache.evictLoop] at h
      split at h
      · exact ih h
      · cases h
        omega

/-- A successful `set` appends the fresh entry after the survivors of the
eviction loop. -/
theorem set_eq_of_ok {c : LRUCache K V} {k : K} {v : V} {ttl : Option ℤ}
    {now : ℚ} (hok : (c.set k v ttl now).2 = true) :
    ∃ l2, LRUCache.evictLoop c.max_size (eraseKey k c.cache) = some l2 ∧
      (c.set k v ttl now).1 =
        { c with cache :=
            l2 ++ [(k, CacheEntry.mkEntry k v (c.effective_ttl ttl) now)] } := by
  simp only [LRUCache.set] at hok ⊢
  cases h : LRUCache.evictLoop c.max_size (eraseKey k c.cache) with
  | none => simp [h] at hok
  | some l2 => exact ⟨l2, rfl, by simp [h]⟩

/-- `get` on an absent key: miss, mapping untouched. -/
theorem get_absent {c : LRUCache K V} {k : K} (now : ℚ)
    (hl : lookupEntry k c.cache = none) :
    c.get k now = (none, { c with misses := c.misses + 1 }) := by
  simp only [LRUCache.get, hl]

/-- `get` on a present, unexpired key: hit, value returned, entry moved to
the most-recently-used end with its access metadata updated. -/
theorem get_found_fresh {c : LRUCache K V} {k : K} {e : CacheEntry K V}
    {now : ℚ} (hl : lookupEntry k c.cache = some e)
    (hfresh : e.is_expired now = false) :
    c.get k now =
      (some e.value,
       { c with
         cache := eraseKey k c.cache ++ [(k, (e.access now).2)]
         hits := c.hits + 1 }) := by
  simp only [LRUCache.get, hl, hfresh, CacheEntry.access, Bool.false_eq_true,
    if_false]

/-- `get` on a present but expired key: the entry is deleted and the call is
a miss. -/
theorem get_found_expired {c : LRUCache K V} {k : K} {e : CacheEntry K V}
    {now : ℚ} (hl : lookupEntry k c.cache = some e)
    (hexp : e.is_expired now = true) :
    c.get k now =
      (none,
       { c with
         cache := eraseKey k c.cache
         misses := c.misses + 1 }) := by
  simp only [LRUCache.get, hl, hexp, if_true]

/-- Every `get` call bumps exactly one counter, matching its observable
outcome: the hit counter when a value is returned, the miss counter when the
result is absent. -/
theorem get_hits (c : LRUCache K V) (k : K) (now : ℚ) :
    (c.get k now).2.hits = c.hits + (if ((c.get k now).1).isSome then 1 else 0) := by
  cases hl : lookupEntry k c.cache with
  | none => rw [get_absent now hl]; simp
  | some e =>
      cases hexp : e.is_expired now with
      | false => rw [get_found_fresh hl hexp]; simp
      | true => rw [get_found_expired hl hexp]; simp

theorem get_misses (c : LRUCache K V) (k : K) (now : ℚ) :
    (c.get k now).2.misses =
      c.misses + (if ((c.get k now).1).isSome then 0 else 1) := by
  cases hl : lookupEntry k c.cache with
  | none => rw [get_absent now hl]; simp
  | some e =>
      cases hexp : e.is_expired now with
      | false => rw [get_found_fresh hl hexp]; simp
      | true => rw [get_found_expired hl hexp]; simp

/-- Along any sequence of `get` calls, the counters advance by exactly the
number of hit outcomes and miss outcomes respectively. -/
theorem runGets_counters (ops : List (K × ℚ)) :
    ∀ c : LRUCache K V,
      (LRUCache.runGets c ops).1.hits = c.hits + (LRUCache.runGets c ops).2.1 ∧
      (LRUCache.runGets c ops).1.misses =
        c.misses + (LRUCache.runGets c ops).2.2 := by
  induction ops with
  | nil => intro c; simp [LRUCache.runGets]
  | cons p rest ih =>
      intro c
      obtain ⟨k, now⟩ := p
      have hh := get_hits c k now
      have hm := get_misses c k now
      have ihc := ih (c.get k now).2
      simp only [LRUCache.runGets]
      cases hs : ((c.get k now).1).isSome with
      | true =>
          simp [hs] at hh hm ⊢
          omega
      | false =>
          simp [hs] at hh hm ⊢
          omega

/-- With a positive `max_size` the eviction loop always terminates normally. -/
theorem evictLoop_isSome {m : ℕ} (hm : 1 ≤ m) (l : List (K × CacheEntry K V)) :
    ∃ l', LRUCache.evictLoop m l = some l' := by
  induction l with
  | nil =>
      refine ⟨[], ?_⟩
      simp only [LRUCache.evictLoop]
      rw [if_neg (by omega)]
  | cons p rest ih =>
      simp only [LRUCache.evictLoop]
      by_cases h : m ≤ (p :: rest).length
      · rw [if_pos h]
        exact ih
      · rw [if_neg h]
        exact ⟨p :: rest, rfl⟩

/-- After a `set` with positive `max_size`, the key maps to the freshly
created entry. -/
theorem lookupEntry_set_self (c : LRUCache K V) (k : K) (v : V)
    (ttl : Option ℤ) (now : ℚ) (hm : 1 ≤ c.max_size) :
    lookupEntry k ((c.set k v ttl now).1).cache =
      some (CacheEntry.mkEntry k v (c.effective_ttl ttl) now) := by
  obtain ⟨l2, hev⟩ := evictLoop_isSome hm (eraseKey k c.cache)
  have hl2 : lookupEntry k l2 = none :=
    evictLoop_lookup_none (lookupEntry_eraseKey_self k c.cache) hev
  simp only [LRUCache.set, hev]
  rw [lookupEntry_append_of_none hl2]
  simp [lookupEntry]

/-- One cache operation keeps `max_size` and keeps the entry count within
`max_size`. -/
theorem applyOp_size {c : LRUCache K V} (h : c.cache.length ≤ c.max_size)
    (op : LRUCache.CacheOp K V) :
    (c.applyOp op).cache.length ≤ (c.applyOp op).max_size ∧
    (c.applyOp op).max_size = c.max_size := by
  cases op with
  | get k now =>
      simp only [LRUCache.applyOp]
      cases hl : lookupEntry k c.cache with
      | none =>
          rw [get_absent now hl]
          exact ⟨h, rfl⟩
      | some e =>
          cases hexp : e.is_expired now with
          | true =>
              rw [get_found_expired hl hexp]
              exact ⟨le_trans (length_eraseKey_le k c.cache) h, rfl⟩
          | false =>
              rw [get_found_fresh hl hexp]
              refine ⟨?_, rfl⟩
              simp only [List.length_append, List.length_cons, List.length_nil]
              have := length_eraseKey_lt hl
              omega
  | set k v ttl now =>
      simp only [LRUCache.applyOp, LRUCache.set]
      cases hev : LRUCache.evictLoop c.max_size (eraseKey k c.cache) with
      | none =>
          simp only [hev]
          exact ⟨Nat.zero_le _, trivial⟩
      | some l2 =>
          have hlen := evictLoop_some_length hev
          simp only [hev, List.length_append, List.length_cons, List.length_nil]
          exact ⟨by omega, trivial⟩
  | delete k =>
      simp only [LRUCache.applyOp, LRUCache.delete]
      cases hl : lookupEntry k c.cache with
      | none =>
          simp only [hl]
          exact ⟨h, trivial⟩
      | some e =>
          simp only [hl]
          exact ⟨le_trans (length_eraseKey_le k c.cache) h, trivial⟩
  | clear => exact ⟨Nat.zero_le _, rfl⟩
  | cleanup_expired now =>
      simp only [LRUCache.applyOp, LRUCache.cleanup_expired]
      exact ⟨le_trans (List.length_filter_le _ _) h, trivial⟩

end CacheLemmas

/-! ## Claim C1 -/

/-- C1: on an `LRUCache(max_size=3)`, after `set a`, `set b`, `set c` (none
expired), `get a`, `set d`, the key `b` has been evicted and exactly
`c`, `a`, `d` remain (in least- to most-recently-used order): `set` evicts
the least-recently-used entry and `get` moves its key to the
most-recently-used position. -/
theorem C1_lru_eviction :
    c1_state.cache.map Prod.fst = ["c", "a", "d"] ∧
    lookupEntry "b" c1_state.cache = none := by
  norm_num +decide [c1_state, LRUCache.runOps, LRUCache.applyOp, LRUCache.get,
    LRUCache.set, LRUCache.init, LRUCache.effective_ttl, LRUCache.evictLoop,
    eraseKey, lookupEntry, CacheEntry.mkEntry, CacheEntry.is_expired,
    CacheEntry.access]

/-! ## Claims C6 and C7 -/

/-- C6: `clear()` zeroes both counters, and after any sequence of `get`
calls with `H` hit outcomes and `M` miss outcomes since the clear,
`get_stats()` reports `hit_rate = round(H / (H + M) * 100, 2)`, or `0` when
`H + M = 0`. -/
theorem C6_hit_rate_stats {K V : Type} [DecidableEq K]
    (c : LRUCache K V) (ops : List (K × ℚ)) :
    c.clear.hits = 0 ∧ c.clear.misses = 0 ∧
    ((LRUCache.runGets c.clear ops).1.get_stats).hit_rate =
      (if (LRUCache.runGets c.clear ops).2.1 + (LRUCache.runGets c.clear ops).2.2 = 0
       then 0
       else LRUCache.pyRound2
         (((LRUCache.runGets c.clear ops).2.1 : ℚ) /
          (((LRUCache.runGets c.clear ops).2.1 +
            (LRUCache.runGets c.clear ops).2.2 : ℕ) : ℚ) * 100)) := by
  refine ⟨rfl, rfl, ?_⟩
  obtain ⟨hh, hm⟩ := runGets_counters ops c.clear
  have hh0 : (LRUCache.runGets c.clear ops).1.hits =
      (LRUCache.runGets c.clear ops).2.1 := by
    rw [hh]
    simp [LRUCache.clear]
  have hm0 : (LRUCache.runGets c.clear ops).1.misses =
      (LRUCache.runGets c.clear ops).2.2 := by
    rw [hm]
    simp [LRUCache.clear]
  simp only [LRUCache.get_stats, hh0, hm0]
  by_cases h0 : (LRUCache.runGets c.clear ops).2.1 +
      (LRUCache.runGets c.clear ops).2.2 = 0
  · rw [if_pos h0, if_neg (by omega)]
    norm_num [LRUCache.pyRound2, LRUCache.pyRoundHalfEven]
  · rw [if_neg h0, if_pos (by omega)]

/-- C7: along every sequence of `get`/`set`/`delete`/`clear`/
`cleanup_expired` operations from a state whose entry count is within
`max_size`, the number of entries in the mapping stays at most `max_size`
after each operation completes. -/
theorem C7_size_invariant {K V : Type} [DecidableEq K] (c : LRUCache K V)
    (h : c.cache.length ≤ c.max_size) :
    ∀ ops : List (LRUCache.CacheOp K V),
      (LRUCache.runOps c ops).cache.length ≤ (LRUCache.runOps c ops).max_size := by
  intro ops
  induction ops generalizing c with
  | nil => exact h
  | cons op rest ih =>
      simp only [LRUCache.runOps]
      exact ih _ (applyOp_size h op).1

/-- C7 witness: the bound instantiated on an `LRUCache(max_size=2)` driven
through sets (with eviction), a get, a delete, a clear and a cleanup. -/
theorem C7_size_invariant_witness :
    (LRUCache.runOps (LRUCache.init 2 5 : LRUCache ℕ ℕ)
        [.set 0 1 none 0, .set 1 2 none 0, .set 2 3 none 0, .get 0 0,
         .delete 1, .cleanup_expired 0, .clear]).cache.length ≤
      (LRUCache.runOps (LRUCache.init 2 5 : LRUCache ℕ ℕ)
        [.set 0 1 none 0, .set 1 2 none 0, .set 2 3 none 0, .get 0 0,
         .delete 1, .cleanup_expired 0, .clear]).max_size :=
  C7_size_invariant (LRUCache.init 2 5) (by simp [LRUCache.init]) _

/-! ## Claim C3 -/

/-- C3: after a completed `set(k, v, ttl)` (with a positive ttl), a `get(k)`
strictly before `created_at + ttl` returns `v` and is counted as a hit,
while a `get(k)` at or after the expiry instant returns absent, removes the
entry from the mapping, and is counted as a miss. -/
theorem C3_ttl_expiry {K V : Type} [DecidableEq K]
    (c : LRUCache K V) (k : K) (v : V) (t : ℤ) (now now' : ℚ)
    (ht : 0 < t) (hok : (c.set k v (some t) now).2 = true) :
    (now' < now + (t : ℚ) →
      ((c.set k v (some t) now).1.get k now').1 = some v ∧
      ((c.set k v (some t) now).1.get k now').2.hits =
        (c.set k v (some t) now).1.hits + 1) ∧
    (now + (t : ℚ) ≤ now' →
      ((c.set k v (some t) now).1.get k now').1 = none ∧
      ((c.set k v (some t) now).1.get k now').2.misses =
        (c.set k v (some t) now).1.misses + 1 ∧
      lookupEntry k ((c.set k v (some t) now).1.get k now').2.cache = none) := by
  obtain ⟨l2, hevict, hc1⟩ := set_eq_of_ok hok
  have httl : c.effective_ttl (some t) = t := by
    simp only [LRUCache.effective_ttl]
    rw [if_neg (by omega)]
  rw [httl] at hc1
  have hl2none : lookupEntry k l2 = none :=
    evictLoop_lookup_none (lookupEntry_eraseKey_self k c.cache) hevict
  have hlook : lookupEntry k ((c.set k v (some t) now).1).cache =
      some (CacheEntry.mkEntry k v t now) := by
    rw [hc1]
    rw [lookupEntry_append_of_none hl2none]
    simp [lookupEntry]
  constructor
  · intro hfresh
    have hexp : (CacheEntry.mkEntry k v t now : CacheEntry K V).is_expired now' = false := by
      simp only [CacheEntry.is_expired, CacheEntry.mkEntry,
        decide_eq_false_iff_not, not_le]
      exact hfresh
    rw [get_found_fresh hlook hexp]
    exact ⟨rfl, rfl⟩
  · intro hold
    have hexp : (CacheEntry.mkEntry k v t now : CacheEntry K V).is_expired now' = true := by
      simp only [CacheEntry.is_expired, CacheEntry.mkEntry, decide_eq_true_eq]
      exact hold
    rw [get_found_expired hlook hexp]
    exact ⟨rfl, rfl, lookupEntry_eraseKey_self k _⟩

/-- C3 witness: concrete instantiation with `set("k", 7, ttl=1)` at time 0 on
an empty `LRUCache(max_size=2)`, read back at times 1/2 (hit) and 1
(expired miss). -/
theorem C3_ttl_expiry_witness :
    (((1 : ℚ)/2 < 0 + ((1 : ℤ) : ℚ) →
      (((LRUCache.init 2 3600 : LRUCache ℕ ℕ).set 0 7 (some 1) 0).1.get 0 (1/2)).1 = some 7 ∧
      (((LRUCache.init 2 3600 : LRUCache ℕ ℕ).set 0 7 (some 1) 0).1.get 0 (1/2)).2.hits =
        ((LRUCache.init 2 3600 : LRUCache ℕ ℕ).set 0 7 (some 1) 0).1.hits + 1) ∧
     (0 + ((1 : ℤ) : ℚ) ≤ 1/2 →
      (((LRUCache.init 2 3600 : LRUCache ℕ ℕ).set 0 7 (some 1) 0).1.get 0 (1/2)).1 = none ∧
      (((LRUCache.init 2 3600 : LRUCache ℕ ℕ).set 0 7 (some 1) 0).1.get 0 (1/2)).2.misses =
        ((LRUCache.init 2 3600 : LRUCache ℕ ℕ).set 0 7 (some 1) 0).1.misses + 1 ∧
      lookupEntry 0 (((LRUCache.init 2 3600 : LRUCache ℕ ℕ).set 0 7 (some 1) 0).1.get 0 (1/2)).2.cache = none)) ∧
    (((1 : ℚ) < 0 + ((1 : ℤ) : ℚ) →
      (((LRUCache.init 2 3600 : LRUCache ℕ ℕ).set 0 7 (some 1) 0).1.get 0 1).1 = some 7 ∧
      (((LRUCache.init 2 3600 : LRUCache ℕ ℕ).set 0 7 (some 1) 0).1.get 0 1).2.hits =
        ((LRUCache.init 2 3600 : LRUCache ℕ ℕ).set 0 7 (some 1) 0).1.hits + 1) ∧
     (0 + ((1 : ℤ) : ℚ) ≤ 1 →
      (((LRUCache.init 2 3600 : LRUCache ℕ ℕ).set 0 7 (some 1) 0).1.get 0 1).1 = none ∧
      (((LRUCache.init 2 3600 : LRUCache ℕ ℕ).set 0 7 (some 1) 0).1.get 0 1).2.misses =
        ((LRUCache.init 2 3600 : LRUCache ℕ ℕ).set 0 7 (some 1) 0).1.misses + 1 ∧
      lookupEntry 0 (((LRUCache.init 2 3600 : LRUCache ℕ ℕ).set 0 7 (some 1) 0).1.get 0 1).2.cache = none)) :=
  ⟨C3_ttl_expiry (LRUCache.init 2 3600) 0 7 1 0 (1/2) (by norm_num)
      (by norm_num +decide [LRUCache.set, LRUCache.init, LRUCache.effective_ttl,
        LRUCache.evictLoop, eraseKey]),
   C3_ttl_expiry (LRUCache.init 2 3600) 0 7 1 0 1 (by norm_num)
      (by norm_num +decide [LRUCache.set, LRUCache.init, LRUCache.effective_ttl,
        LRUCache.evictLoop, eraseKey])⟩

/-! ## Response-header and bucket-threading lemmas -/

theorem lookupHeader_filter_self (k : String) (l : List (String × String)) :
    lookupHeader k (l.filter fun p => decide (p.1 ≠ k)) = none := by
  induction l with
  | nil => rfl
  | cons p rest ih =>
      by_cases h : p.1 = k
      · simpa [List.filter_cons, h] using ih
      · simpa [List.filter_cons, h, lookupHeader] using ih

theorem lookupHeader_setHeader_self (r : Response) (k v : String) :
    lookupHeader k (setHeader r k v).headers = some v := by
  simp only [setHeader]
  induction r.headers with
  | nil => simp [lookupHeader]
  | cons p rest ih =>
      by_cases h : p.1 = k
      · simpa [List.filter_cons, h] using ih
      · simpa [List.filter_cons, h, lookupHeader] using ih

theorem lookupHeader_setHeader_other (r : Response) {k k' : String}
    (v : String) (h : k ≠ k') :
    lookupHeader k (setHeader r k' v).headers = lookupHeader k r.headers := by
  have h' : ¬ k' = k := fun hh => h hh.symm
  simp only [setHeader]
  induction r.headers with
  | nil => simp [lookupHeader, h']
  | cons p rest ih =>
      by_cases hp : p.1 = k'
      · have hpk : ¬ p.1 = k := by rw [hp]; exact h'
        have hfilter : List.filter (fun q => decide (q.1 ≠ k')) (p :: rest) =
            List.filter (fun q => decide (q.1 ≠ k')) rest := by
          simp [List.filter_cons, hp]
        rw [hfilter, ih]
        simp only [lookupHeader]
        rw [if_neg hpk]
      · have hfilter : List.filter (fun q => decide (q.1 ≠ k')) (p :: rest) =
            p :: List.filter (fun q => decide (q.1 ≠ k')) rest := by
          simp [List.filter_cons, hp]
        rw [hfilter, List.cons_append]
        simp only [lookupHeader]
        by_cases hpk : p.1 = k
        · rw [if_pos hpk, if_pos hpk]
        · rw [if_neg hpk, if_neg hpk, ih]

theorem TokenBucket.consume_fst_true_iff (b : TokenBucket) (now : ℚ) (n : ℤ) :
    (b.consume now n).1 = true ↔ (n : ℚ) ≤ (b.refill now).tokens := by
  simp only [TokenBucket.consume]
  split
  next h => simp [h]
  next h => simp [h]

theorem TokenBucket.consume_capacity (b : TokenBucket) (now : ℚ) (n : ℤ) :
    (b.consume now n).2.capacity = b.capacity := by
  simp only [TokenBucket.consume]
  split
  next => rfl
  next => rfl

theorem RateLimitMiddleware.threadBucket_capacity
    (m : RateLimitMiddleware) (idOf : Request → String) (req : Request)
    (t1 t2 : ℚ) :
    (m.threadBucket idOf req t1 t2).capacity =
      (m.accessedBucket idOf req t1).capacity := by
  simp only [RateLimitMiddleware.threadBucket]
  by_cases h : m.cleanup_interval < t2 - m.last_cleanup
  · simp only [h, if_pos]
    rw [show ∀ b : TokenBucket, ∀ t : ℚ, (b.get_tokens t).2.capacity = b.capacity
        from fun b t => rfl]
    exact TokenBucket.consume_capacity _ _ _
  · simp only [h, if_neg, not_false_iff]
    exact TokenBucket.consume_capacity _ _ _

theorem TokenBucket.consume_last_refill (b : TokenBucket) (now : ℚ) (n : ℤ) :
    (b.consume now n).2.last_refill = now := by
  simp only [TokenBucket.consume]
  split
  next => rfl
  next => rfl

theorem TokenBucket.consume_rate (b : TokenBucket) (now : ℚ) (n : ℤ) :
    (b.consume now n).2.refill_rate = b.refill_rate := by
  simp only [TokenBucket.consume]
  split
  next => rfl
  next => rfl

/-- A successful `consume` of a non-negative amount leaves a valid bucket
state. -/
theorem TokenBucket.Inv_of_consume_true {b : TokenBucket} {now : ℚ} {n : ℤ}
    (h : (b.consume now n).1 = true) (hn : 0 ≤ n)
    (hrate : 0 ≤ b.refill_rate) : TokenBucket.Inv (b.consume now n).2 := by
  have h1 : (n : ℚ) ≤ (b.refill now).tokens :=
    (TokenBucket.consume_fst_true_iff b now n).mp h
  rw [TokenBucket.consume_true b now n h1]
  have hn' : (0 : ℚ) ≤ (n : ℚ) := by exact_mod_cast hn
  have hcap : (b.refill now).tokens ≤ ((b.refill now).capacity : ℚ) := by
    simp only [TokenBucket.refill]
    exact min_le_left _ _
  exact ⟨hrate, by simp only []; linarith, by simp only []; linarith⟩

/-- After a successful `consume(1)`, the bucket threaded through the
optional cleanup sweep is valid and its refill stamp is at most `t2`. -/
theorem RateLimitMiddleware.threadBucket_inv
    (m : RateLimitMiddleware) (idOf : Request → String) (req : Request)
    {t1 t2 : ℚ}
    (hsucc : ((m.accessedBucket idOf req t1).consume t1 1).1 = true)
    (hrate : 0 ≤ (m.accessedBucket idOf req t1).refill_rate)
    (ht12 : t1 ≤ t2) :
    TokenBucket.Inv (m.threadBucket idOf req t1 t2) ∧
    (m.threadBucket idOf req t1 t2).last_refill ≤ t2 := by
  have hinv : TokenBucket.Inv ((m.accessedBucket idOf req t1).consume t1 1).2 :=
    TokenBucket.Inv_of_consume_true hsucc (by norm_num) hrate
  have hlast : ((m.accessedBucket idOf req t1).consume t1 1).2.last_refill = t1 :=
    TokenBucket.consume_last_refill _ _ _
  simp only [RateLimitMiddleware.threadBucket]
  by_cases h : m.cleanup_interval < t2 - m.last_cleanup
  · rw [if_pos h]
    exact ⟨hinv.refill (by rw [hlast]; exact ht12), le_refl t2⟩
  · rw [if_neg h]
    exact ⟨hinv, by rw [hlast]; exact ht12⟩

/-! ## Claim C5 -/

/-- C5: `dispatch` bypasses rate limiting entirely for the health-check
paths; otherwise, when the identifier's bucket cannot supply one token it
returns the status-429 response carrying `Retry-After: 60` and does not
invoke `call_next` (the response is the fixed rejection, for every
`call_next`); and when the token is consumed it returns `call_next`'s
response annotated with `X-RateLimit-Limit` (the bucket capacity) and
`X-RateLimit-Remaining` (the current token count, floored). -/
theorem C5_dispatch_behavior (m : RateLimitMiddleware)
    (idOf : Request → String) (req : Request)
    (call_next : Request → Response) (t1 t2 t3 : ℚ)
    (hrate : 0 ≤ (m.accessedBucket idOf req t1).refill_rate)
    (ht12 : t1 ≤ t2) (ht23 : t2 ≤ t3) :
    ((req.path = "/health" ∨ req.path = "/api/health") →
       m.dispatch idOf req call_next t1 t2 t3 = (call_next req, m)) ∧
    (¬(req.path = "/health" ∨ req.path = "/api/health") →
       (((m.accessedBucket idOf req t1).consume t1 1).1 = false →
          (m.dispatch idOf req call_next t1 t2 t3).1 = tooManyRequests ∧
          tooManyRequests.status = 429 ∧
          lookupHeader "Retry-After" tooManyRequests.headers = some "60") ∧
       (((m.accessedBucket idOf req t1).consume t1 1).1 = true →
          (m.dispatch idOf req call_next t1 t2 t3).1 =
            setHeader
              (setHeader (call_next req) "X-RateLimit-Limit"
                (toString (m.threadBucket idOf req t1 t2).capacity))
              "X-RateLimit-Remaining"
              (toString (pyInt ((m.threadBucket idOf req t1 t2).get_tokens t3).1)) ∧
          (m.threadBucket idOf req t1 t2).capacity =
            (m.accessedBucket idOf req t1).capacity ∧
          pyInt ((m.threadBucket idOf req t1 t2).get_tokens t3).1 =
            ⌊((m.threadBucket idOf req t1 t2).get_tokens t3).1⌋ ∧
          lookupHeader "X-RateLimit-Limit"
              ((m.dispatch idOf req call_next t1 t2 t3).1).headers =
            some (toString (m.threadBucket idOf req t1 t2).capacity) ∧
          lookupHeader "X-RateLimit-Remaining"
              ((m.dispatch idOf req call_next t1 t2 t3).1).headers =
            some (toString (pyInt ((m.threadBucket idOf req t1 t2).get_tokens t3).1)))) := by
  refine ⟨?_, ?_⟩
  · intro hpath
    simp only [RateLimitMiddleware.dispatch]
    rw [if_pos hpath]
  · intro hpath
    constructor
    · intro hfail
      refine ⟨?_, rfl, rfl⟩
      simp only [RateLimitMiddleware.dispatch]
      rw [if_neg hpath, if_pos hfail]
    · intro hsucc
      have hdisp : (m.dispatch idOf req call_next t1 t2 t3).1 =
          setHeader
            (setHeader (call_next req) "X-RateLimit-Limit"
              (toString (m.threadBucket idOf req t1 t2).capacity))
            "X-RateLimit-Remaining"
            (toString (pyInt ((m.threadBucket idOf req t1 t2).get_tokens t3).1)) := by
        simp only [RateLimitMiddleware.dispatch]
        rw [if_neg hpath, if_neg (by rw [hsucc]; simp)]
      have hbl := RateLimitMiddleware.threadBucket_inv m idOf req hsucc hrate ht12
      have htok : 0 ≤ ((m.threadBucket idOf req t1 t2).get_tokens t3).1 := by
        have := (hbl.1.refill (le_trans hbl.2 ht23)).2.1
        simpa [TokenBucket.get_tokens] using this
      refine ⟨hdisp, RateLimitMiddleware.threadBucket_capacity m idOf req t1 t2,
        ?_, ?_, ?_⟩
      · simp only [pyInt]
        rw [if_pos htok]
      · rw [hdisp]
        rw [lookupHeader_setHeader_other _ _ (by decide),
          lookupHeader_setHeader_self]
      · rw [hdisp]
        rw [lookupHeader_setHeader_self]

/-- C5 witness: the dispatch contract instantiated on a fresh middleware
(`requests_per_minute = 60`, `burst_size = 5`), identity `"ip"`, a
non-health path, a constant downstream handler, and all clocks at 0. -/
theorem C5_dispatch_behavior_witness :
    ((Request.mk "/x").path = "/health" ∨ (Request.mk "/x").path = "/api/health" →
       (RateLimitMiddleware.init 60 5 0).dispatch (fun _ => "ip") (Request.mk "/x")
           (fun _ => Response.mk 200 []) 0 0 0 =
         ((fun _ => Response.mk 200 []) (Request.mk "/x"), RateLimitMiddleware.init 60 5 0)) ∧
    (¬((Request.mk "/x").path = "/health" ∨ (Request.mk "/x").path = "/api/health") →
       ((((RateLimitMiddleware.init 60 5 0).accessedBucket (fun _ => "ip")
             (Request.mk "/x") 0).consume 0 1).1 = false →
          ((RateLimitMiddleware.init 60 5 0).dispatch (fun _ => "ip") (Request.mk "/x")
              (fun _ => Response.mk 200 []) 0 0 0).1 = tooManyRequests ∧
          tooManyRequests.status = 429 ∧
          lookupHeader "Retry-After" tooManyRequests.headers = some "60") ∧
       ((((RateLimitMiddleware.init 60 5 0).accessedBucket (fun _ => "ip")
             (Request.mk "/x") 0).consume 0 1).1 = true →
          ((RateLimitMiddleware.init 60 5 0).dispatch (fun _ => "ip") (Request.mk "/x")
              (fun _ => Response.mk 200 []) 0 0 0).1 =
            setHeader
              (setHeader ((fun _ => Response.mk 200 []) (Request.mk "/x"))
                "X-RateLimit-Limit"
                (toString (((RateLimitMiddleware.init 60 5 0).threadBucket
                    (fun _ => "ip") (Request.mk "/x") 0 0)).capacity))
              "X-RateLimit-Remaining"
              (toString (pyInt ((((RateLimitMiddleware.init 60 5 0).threadBucket
                  (fun _ => "ip") (Request.mk "/x") 0 0)).get_tokens 0).1)) ∧
          (((RateLimitMiddleware.init 60 5 0).threadBucket (fun _ => "ip")
              (Request.mk "/x") 0 0)).capacity =
            ((RateLimitMiddleware.init 60 5 0).accessedBucket (fun _ => "ip")
              (Request.mk "/x") 0).capacity ∧
          pyInt ((((RateLimitMiddleware.init 60 5 0).threadBucket (fun _ => "ip")
              (Request.mk "/x") 0 0)).get_tokens 0).1 =
            ⌊((((RateLimitMiddleware.init 60 5 0).threadBucket (fun _ => "ip")
              (Request.mk "/x") 0 0)).get_tokens 0).1⌋ ∧
          lookupHeader "X-RateLimit-Limit"
              (((RateLimitMiddleware.init 60 5 0).dispatch (fun _ => "ip")
                (Request.mk "/x") (fun _ => Response.mk 200 []) 0 0 0).1).headers =
            some (toString (((RateLimitMiddleware.init 60 5 0).threadBucket
              (fun _ => "ip") (Request.mk "/x") 0 0)).capacity) ∧
          lookupHeader "X-RateLimit-Remaining"
              (((RateLimitMiddleware.init 60 5 0).dispatch (fun _ => "ip")
                (Request.mk "/x") (fun _ => Response.mk 200 []) 0 0 0).1).headers =
            some (toString (pyInt ((((RateLimitMiddleware.init 60 5 0).threadBucket
              (fun _ => "ip") (Request.mk "/x") 0 0)).get_tokens 0).1)))) :=
  C5_dispatch_behavior (RateLimitMiddleware.init 60 5 0) (fun _ => "ip")
    (Request.mk "/x") (fun _ => Response.mk 200 []) 0 0 0
    (by norm_num [RateLimitMiddleware.accessedBucket, RateLimitMiddleware.newBucket,
      RateLimitMiddleware.init, TokenBucket.init, lookupBucket])
    (le_refl 0) (le_refl 0)

/-! ## Claims C4 and C10 -/

/-- When the cache lookup observes no (non-`None`) value, the wrapper calls
the wrapped function and either propagates its error or stores and returns
its result. -/
theorem cachedCall_miss {K W α E : Type} [DecidableEq K]
    {cache : LRUCache K (Option W)} {ttl : Option ℤ} {keyOf : α → K}
    {func : α → Except E (Option W)} {a : α} {now : ℚ}
    (hjoin : ((cache.get (keyOf a) now).1).join = none) :
    cachedCall cache ttl keyOf func a now =
      match func a with
      | Except.error e => (Except.error e, (cache.get (keyOf a) now).2)
      | Except.ok result =>
          (Except.ok result,
           ((cache.get (keyOf a) now).2.set (keyOf a) result ttl now).1) := by
  simp only [cachedCall, hjoin]

/-- C4: if the wrapped function raises on a (cache-missing) call, the
exception propagates unchanged and nothing is stored for that key — the
cache state changes only by the miss counter — so the next call through the
wrapper with the same key invokes the underlying function again. -/
theorem C4_error_not_cached {K W α E : Type} [DecidableEq K]
    (cache : LRUCache K (Option W)) (ttl : Option ℤ) (keyOf : α → K)
    (func func2 : α → Except E (Option W)) (a : α) (now now' : ℚ) (err : E)
    (hfail : func a = Except.error err)
    (habsent : lookupEntry (keyOf a) cache.cache = none) :
    cachedCall cache ttl keyOf func a now =
      (Except.error err, { cache with misses := cache.misses + 1 }) ∧
    (cachedCall { cache with misses := cache.misses + 1 } ttl keyOf
        func2 a now').1 = func2 a := by
  have hget := get_absent (c := cache) now habsent
  constructor
  · rw [cachedCall_miss (by rw [hget]; rfl), hfail, hget]
  · have hget2 := get_absent (c := { cache with misses := cache.misses + 1 })
      now' habsent
    rw [cachedCall_miss (by rw [hget2]; rfl)]
    cases hf2 : func2 a with
    | error e => rfl
    | ok r => rfl

/-- C4 witness: a function failing on a fresh cache; a second call through
the wrapper reaches the (now succeeding) function. -/
theorem C4_error_not_cached_witness :
    cachedCall (LRUCache.init 2 99 : LRUCache ℕ (Option ℕ)) none
        (fun _ => 0) (fun _ => Except.error 5 : ℕ → Except ℕ (Option ℕ)) 0 0 =
      (Except.error 5,
       { (LRUCache.init 2 99 : LRUCache ℕ (Option ℕ)) with
         misses := (LRUCache.init 2 99 : LRUCache ℕ (Option ℕ)).misses + 1 }) ∧
    (cachedCall
        { (LRUCache.init 2 99 : LRUCache ℕ (Option ℕ)) with
          misses := (LRUCache.init 2 99 : LRUCache ℕ (Option ℕ)).misses + 1 }
        none (fun _ => 0)
        (fun _ => Except.ok (some 7) : ℕ → Except ℕ (Option ℕ)) 0 1).1 =
      (fun _ => Except.ok (some 7) : ℕ → Except ℕ (Option ℕ)) 0 :=
  C4_error_not_cached (LRUCache.init 2 99) none (fun _ => 0)
    (fun _ => Except.error 5) (fun _ => Except.ok (some 7)) 0 0 1 5 rfl rfl

/-- C10: when every entry the wrapper could see under this key stores
`None`, a call through the wrapper always invokes the underlying function —
`LRUCache.get` returns the same absent observation for a miss and for a
stored `None`, which the wrapper treats as a miss — and (with positive
capacity) a `None` result is re-stored each time, re-establishing the same
situation. -/
theorem C10_none_never_served {K W α E : Type} [DecidableEq K]
    (cache : LRUCache K (Option W)) (ttl : Option ℤ) (keyOf : α → K)
    (a : α) (now : ℚ)
    (hnone : ∀ e, lookupEntry (keyOf a) cache.cache = some e → e.value = none) :
    (∀ func : α → Except E (Option W),
       (cachedCall cache ttl keyOf func a now).1 = func a) ∧
    (∀ func : α → Except E (Option W), func a = Except.ok none →
       1 ≤ cache.max_size →
       ∃ e, lookupEntry (keyOf a)
           ((cachedCall cache ttl keyOf func a now).2).cache = some e ∧
         e.value = none) := by
  have hjoin : ((cache.get (keyOf a) now).1).join = none := by
    cases hl : lookupEntry (keyOf a) cache.cache with
    | none => rw [get_absent now hl]; rfl
    | some e =>
        cases hexp : e.is_expired now with
        | true => rw [get_found_expired hl hexp]; rfl
        | false =>
            rw [get_found_fresh hl hexp]
            have hv := hnone e hl
            simp [hv]
  constructor
  · intro func
    rw [cachedCall_miss hjoin]
    cases hf : func a with
    | error e => rfl
    | ok r => rfl
  · intro func hf hm
    rw [cachedCall_miss hjoin, hf]
    have hm2 : 1 ≤ ((cache.get (keyOf a) now).2).max_size := by
      cases hl : lookupEntry (keyOf a) cache.cache with
      | none => rw [get_absent now hl]; exact hm
      | some e =>
          cases hexp : e.is_expired now with
          | true => rw [get_found_expired hl hexp]; exact hm
          | false => rw [get_found_fresh hl hexp]; exact hm
    exact ⟨_, lookupEntry_set_self _ _ _ _ _ hm2, rfl⟩

/-- C10 witness: a cache already holding a stored `None` under the key; the
call invokes the passed function, and a `None`-returning function leaves a
stored `None` behind again. -/
theorem C10_none_never_served_witness :
    ((∀ func : ℕ → Except ℕ (Option ℕ),
       (cachedCall ((LRUCache.init 2 99 : LRUCache ℕ (Option ℕ)).set 0 none none 0).1
          none (fun _ => 0) func 0 1).1 = func 0) ∧
     (∀ func : ℕ → Except ℕ (Option ℕ), func 0 = Except.ok none →
       1 ≤ ((LRUCache.init 2 99 : LRUCache ℕ (Option ℕ)).set 0 none none 0).1.max_size →
       ∃ e, lookupEntry 0
           ((cachedCall ((LRUCache.init 2 99 : LRUCache ℕ (Option ℕ)).set 0 none none 0).1
              none (fun _ => 0) func 0 1).2).cache = some e ∧
         e.value = none)) ∧
    (1 : ℕ) ≤ ((LRUCache.init 2 99 : LRUCache ℕ (Option ℕ)).set 0 none none 0).1.max_size ∧
    ((fun _ => Except.ok none : ℕ → Except ℕ (Option ℕ)) 0 = Except.ok none) :=
  ⟨C10_none_never_served ((LRUCache.init 2 99 : LRUCache ℕ (Option ℕ)).set 0 none none 0).1
      none (fun _ => 0) 0 1
      (by
        intro e he
        rw [lookupEntry_set_self (LRUCache.init 2 99) 0 none none 0
          (by norm_num [LRUCache.init])] at he
        cases he
        rfl),
   by norm_num +decide [LRUCache.set, LRUCache.init, LRUCache.effective_ttl,
     LRUCache.evictLoop, eraseKey],
   rfl⟩

/-- C8 witness: the amended refill scenario at a concrete wait of 3/2
seconds. -/
theorem C8_refill_scenario_witness :
    (TokenBucket.consumeResults (TokenBucket.init 5 1 0)
        (List.replicate 6 ((0 : ℚ), (1 : ℤ)))).1 =
      [true, true, true, true, true, false] ∧
    (c8_bucket.consume (3/2) 1).1 = true ∧
    (((c8_bucket.consume (3/2) 1).2).consume (3/2) 1).1 = false :=
  C8_refill_scenario (3/2) (by norm_num) (by norm_num)

end SkateIQ
